import Mathlib

/-!
Shallow embedding of the effect-dispatch layer of the Gutenberg block-editor
store (`packages/block-editor/src/store/effects.js`).

The handlers themselves (`validateBlocksToTemplate`, `selectPreviousBlock`,
`ensureDefaultBlock`, the `MERGE_BLOCKS` and `SYNCHRONIZE_TEMPLATE` entries of
the default-exported effects map) are translated from the source file.  The
selectors (`getBlock`, `getBlockCount`, `getBlockRootClientId`,
`getPreviousBlockClientId`, `getSelectedBlockClientId`, `getTemplate`,
`getTemplateLock`, `isValidTemplate`), the action creators, and the
`@wordpress/blocks` helpers (`doBlocksMatchTemplate`,
`synchronizeBlocksWithTemplate`) are repository code not present in this
slice; they are modelled from the spec where so noted.
-/

namespace Gutenberg

/-- Attribute maps: JS objects mapping string keys to (opaque) values. -/
abbrev AttrMap := List (String × String)

/-- Lookup of a key in an attribute map (first binding wins, as in a JS
object without duplicate keys). -/
def lookupAttr (m : AttrMap) (k : String) : Option String :=
  (m.find? (fun kv => kv.1 == k)).map (fun kv => kv.2)

/-- JS object spread `\x7b ...a, ...b \x7d`: every key of `a` in order, with
`b`'s value when `b` also binds it, followed by the keys of `b` that `a`
does not bind. -/
def spreadMerge (a b : AttrMap) : AttrMap :=
  a.map (fun kv =>
    match lookupAttr b kv.1 with
    | some v => (kv.1, v)
    | none => kv) ++
  b.filter (fun kv => (lookupAttr a kv.1).isNone)

/-- A document block: `\x7b clientId, name, attributes, innerBlocks \x7d`. -/
inductive Block where
  | mk (clientId : String) (name : String) (attributes : AttrMap)
       (innerBlocks : List Block)
deriving Repr

/-- The block's client id. -/
def Block.clientId : Block → String
  | .mk c _ _ _ => c

/-- The block's type name. -/
def Block.name : Block → String
  | .mk _ n _ _ => n

/-- The block's attributes. -/
def Block.attributes : Block → AttrMap
  | .mk _ _ a _ => a

/-- The block's nested children. -/
def Block.innerBlocks : Block → List Block
  | .mk _ _ _ i => i

/-- JS object spread `\x7b ...blockA, attributes: ... \x7d`: the same block
with its attributes replaced. -/
def Block.withAttributes : Block → AttrMap → Block
  | .mk c n _ i, a => .mk c n a i

mutual

/-- Modelled from the spec: the derived state query "get block by id",
searching the block tree for the block with the given client id. -/
def findBlock : Block → String → Option Block
  | b@(.mk c _ _ inner), id =>
    if c = id then some b else findBlockIn inner id

/-- Search a list of blocks (and their descendants) for a client id. -/
def findBlockIn : List Block → String → Option Block
  | [], _ => none
  | b :: rest, id =>
    match findBlock b id with
    | some r => some r
    | none => findBlockIn rest id

end

mutual

/-- Modelled from the spec: the derived state query "parent/root of a
block".  Returns the client id of the parent container of the block with
the given id, where `p` is the id of the container holding this sibling
list (the document root being `""`). -/
def findRootIn : String → List Block → String → Option String
  | _, [], _ => none
  | p, b :: rest, id =>
    if b.clientId = id then some p
    else
      match findRootOf b id with
      | some r => some r
      | none => findRootIn p rest id

/-- Search inside a single block's children for the parent of `id`. -/
def findRootOf : Block → String → Option String
  | .mk c _ _ inner, id => findRootIn c inner id

end

/-- Modelled from the spec: `getBlockRootClientId` — the parent container id
of a block, `""` for a top-level block. -/
def getBlockRootClientId (blocks : List Block) (id : String) : String :=
  (findRootIn "" blocks id).getD ""

mutual

/-- Modelled from the spec: the derived state query "sibling preceding a
block".  `prev` carries the id of the sibling seen just before the current
position; the outer `Option` is "was the id found in this subtree", the
inner one is "does a preceding sibling exist". -/
def findPrevIn : Option String → List Block → String → Option (Option String)
  | _, [], _ => none
  | prev, b :: rest, id =>
    if b.clientId = id then some prev
    else
      match findPrevOf b id with
      | some r => some r
      | none => findPrevIn (some b.clientId) rest id

/-- Search inside a single block's children for the predecessor of `id`. -/
def findPrevOf : Block → String → Option (Option String)
  | .mk _ _ _ inner, id => findPrevIn none inner id

end

/-- Modelled from the spec: `getPreviousBlockClientId` — the id of the
sibling immediately preceding the block, or none when the block is first
among its siblings (or absent). -/
def getPreviousBlockClientId (blocks : List Block) (id : String) : Option String :=
  (findPrevIn none blocks id).getD none

/-- A template entry: a `(typeName, attributes, childTemplate?)` triple;
the child template is optional. -/
inductive TemplateEntry where
  | mk (typeName : String) (attributes : AttrMap)
       (children : Option (List TemplateEntry))
deriving Repr

/-- The template entry's expected type name. -/
def TemplateEntry.typeName : TemplateEntry → String
  | .mk n _ _ => n

/-- The template entry's default attributes. -/
def TemplateEntry.attributes : TemplateEntry → AttrMap
  | .mk _ a _ => a

/-- The template entry's optional child template. -/
def TemplateEntry.children : TemplateEntry → Option (List TemplateEntry)
  | .mk _ _ c => c

/-- A template: an ordered sequence of entries. -/
abbrev Template := List TemplateEntry

/-- Modelled from the spec: `doBlocksMatchTemplate` from the blocks
package — structural match between a block list and a template: same
count of entries, each entry's type name equal to the block's at that
position, recursively for nested children (an absent child template
requires no children); attribute values are not compared. -/
def doBlocksMatchTemplate : List Block → Template → Bool
  | [], [] => true
  | _ :: _, [] => false
  | [], _ :: _ => false
  | .mk _ n _ inner :: bs, .mk tn _ tc :: ts =>
    n == tn && doBlocksMatchTemplate inner (tc.getD []) &&
      doBlocksMatchTemplate bs ts

mutual

/-- Modelled from the spec: `synchronizeBlocksWithTemplate` from the
blocks package — reconcile a block list against a template: for each
template entry, reuse the existing block at that position if its type
matches (recursing into its children), otherwise construct a fresh
default block of the template's type; trailing blocks beyond the
template's length are dropped, missing entries are created.  An absent
template is no constraint: the blocks are returned unchanged.  Fresh
blocks carry an unspecified opaque id, modelled as `""`. -/
def synchronizeBlocksWithTemplate (blocks : List Block) : Option Template → List Block
  | none => blocks
  | some t => syncList blocks t

/-- Positionwise reconciliation of a block list against template entries. -/
def syncList : List Block → Template → List Block
  | _, [] => []
  | blocks, .mk tn tattrs tc :: ts =>
    (match blocks with
     | .mk c n a inner :: _ =>
       if n == tn then Block.mk c n a (synchronizeBlocksWithTemplate inner tc)
       else Block.mk "" tn tattrs (synchronizeBlocksWithTemplate [] tc)
     | [] => Block.mk "" tn tattrs (synchronizeBlocksWithTemplate [] tc)) ::
    syncList blocks.tail ts

end

/-- The tagged action variants handled or emitted by the effects layer.
Action creators (`selectBlock`, `replaceBlocks`, `setTemplateValidity`,
`insertDefaultBlock`, `resetBlocks`) are repository code not in this
slice; modelled from the spec as plain tagged records.  `selectBlock`'s
caret position is optional: the creator's omitted second argument is
`none`, the end-of-content sentinel is `some (-1)`. -/
inductive Action where
  | resetBlocks (blocks : List Block)
  | removeBlocks (clientIds : List String) (selectPrevious : Bool)
  | replaceBlocks (clientIds : List String) (blocks : List Block)
  | mergeBlocks (firstBlockClientId secondBlockClientId : String)
  | multiSelect
  | synchronizeTemplate
  | selectBlock (clientId : String) (initialPosition : Option Int)
  | setTemplateValidity (isValid : Bool)
  | insertDefaultBlock
deriving Repr

/-- Modelled from the spec: the slice of `DocumentState` the effects
read through the state-query interface.  `past` holds the block trees of
earlier snapshots, most recent last; `present` is the current block
tree. -/
structure EditorState where
  past : List (List Block)
  present : List Block
  selectedBlockClientId : Option String
  template : Option Template
  templateLock : Option String
  isValidTemplate : Bool

/-- Modelled from the spec: `getBlock` — block by client id in the
current tree. -/
def getBlock (st : EditorState) (id : String) : Option Block :=
  findBlockIn st.present id

/-- Modelled from the spec: `getBlockCount` — number of top-level
blocks. -/
def getBlockCount (st : EditorState) : Nat :=
  st.present.length

/-- A block type descriptor from the content-type service: merge is
optional (a type without it is non-mergeable). -/
structure BlockType where
  merge : Option (AttrMap → AttrMap → AttrMap)

/-- The external collaborators of the effects layer: the content-type
registry (`getBlockType`), the transform (`switchToBlockType`, returning
null or a list of replacement blocks), and the configured default block
type used by `insertDefaultBlock`. -/
structure Env where
  getBlockType : String → BlockType
  switchToBlockType : Block → String → Option (List Block)
  defaultBlockName : String

/-- `validateBlocksToTemplate`, split out: the computed validity
`!template || templateLock !== all || doBlocksMatchTemplate(...)`. -/
def computeValidity (st : EditorState) (actionBlocks : List Block) : Bool :=
  match st.template with
  | none => true
  | some template =>
    decide (st.templateLock ≠ some "all") || doBlocksMatchTemplate actionBlocks template

/-- `validateBlocksToTemplate(action, store)`: emit a set-validity
action when the computed validity differs from the cached flag. -/
def validateBlocksToTemplate (actionBlocks : List Block) (st : EditorState) : Option Action :=
  let isBlocksValidToTemplate := computeValidity st actionBlocks
  if isBlocksValidToTemplate != st.isValidTemplate then
    some (.setTemplateValidity isBlocksValidToTemplate)
  else
    none

/-- `selectPreviousBlock(action, store)`: on removal with a truthy
`selectPrevious`, select the block preceding the first removed id in the
pre-removal snapshot (the last `past` entry), falling back to its parent
container, unless that block is already selected. -/
def selectPreviousBlock (clientIds : List String) (selectPrevious : Bool)
    (st : EditorState) : Option Action :=
  if !selectPrevious then
    none
  else
    let firstRemovedBlockClientId := clientIds.headD ""
    let selectedBlockClientId := st.selectedBlockClientId
    let previousBlocks := st.past.getLastD []
    let rootClientId := getBlockRootClientId previousBlocks firstRemovedBlockClientId
    let blockClientIdToSelect :=
      (getPreviousBlockClientId previousBlocks firstRemovedBlockClientId).getD rootClientId
    if some blockClientIdToSelect ≠ selectedBlockClientId then
      some (.selectBlock blockClientIdToSelect (some (-1)))
    else
      none

/-- `ensureDefaultBlock(action, store)`: emit a default block insertion
when no blocks remain. -/
def ensureDefaultBlock (st : EditorState) : Option Action :=
  if getBlockCount st = 0 then some .insertDefaultBlock else none

/-- The `MERGE_BLOCKS` handler.  It dispatches directly, so its result
is the ordered list of dispatched actions; resolving a missing block id
and then reading its `name` throws in the source, modelled as
`Except.error` (the failure is raised, nothing is dispatched first). -/
def mergeBlocksHandler (env : Env) (st : EditorState)
    (firstBlockClientId secondBlockClientId : String) : Except Unit (List Action) :=
  match getBlock st firstBlockClientId with
  | none => .error ()
  | some blockA =>
    let blockType := env.getBlockType blockA.name
    match blockType.merge with
    | none => .ok [.selectBlock blockA.clientId none]
    | some mergeFn =>
      match getBlock st secondBlockClientId with
      | none => .error ()
      | some blockB =>
        let blocksWithTheSameType :=
          if blockA.name == blockB.name then some [blockB]
          else env.switchToBlockType blockB blockA.name
        match blocksWithTheSameType with
        | none => .ok []
        | some [] => .ok []
        | some (candidate :: rest) =>
          let updatedAttributes := mergeFn blockA.attributes candidate.attributes
          .ok [.selectBlock blockA.clientId (some (-1)),
               .replaceBlocks [blockA.clientId, blockB.clientId]
                 (blockA.withAttributes
                    (spreadMerge blockA.attributes updatedAttributes) :: rest)]

/-- The `SYNCHRONIZE_TEMPLATE` handler: reset to the reconciliation of
the current blocks against the current template. -/
def synchronizeTemplateHandler (st : EditorState) : Action :=
  .resetBlocks (synchronizeBlocksWithTemplate st.present st.template)

/-- The default-exported effects registry: the derived actions produced
for one incoming action (handlers for a kind run in registration order;
`MULTI_SELECT` only speaks an announcement, dispatching nothing). -/
def effects (env : Env) (st : EditorState) : Action → Except Unit (List Action)
  | .mergeBlocks a b => mergeBlocksHandler env st a b
  | .resetBlocks blocks => .ok (validateBlocksToTemplate blocks st).toList
  | .removeBlocks clientIds selectPrevious =>
    .ok ((selectPreviousBlock clientIds selectPrevious st).toList ++
         (ensureDefaultBlock st).toList)
  | .replaceBlocks _ _ => .ok (ensureDefaultBlock st).toList
  | .synchronizeTemplate => .ok [synchronizeTemplateHandler st]
  | _ => .ok []

/-- Modelled from the spec: the slice of the external reducer the
emitted actions exercise — default block insertion appends a single
empty block of the configured default type, block selection moves the
selection, set-validity writes the cached flag; other actions are
outside the claims' scope here. -/
def applyAction (env : Env) (st : EditorState) : Action → EditorState
  | .insertDefaultBlock =>
    { st with present := st.present ++ [Block.mk "" env.defaultBlockName [] []] }
  | .selectBlock c _ => { st with selectedBlockClientId := some c }
  | .setTemplateValidity v => { st with isValidTemplate := v }
  | _ => st

/-- Apply a list of emitted actions in order. -/
def applyActions (env : Env) (st : EditorState) (as : List Action) : EditorState :=
  as.foldl (applyAction env) st

/-- The selection-continuity target as the spec words it: the sibling
immediately preceding the removed id in the snapshot when one exists,
else the removed block's parent container id. -/
def previousBlockTarget (snapshot : List Block) (removedId : String) : String :=
  match getPreviousBlockClientId snapshot removedId with
  | some p => p
  | none => getBlockRootClientId snapshot removedId

/-! ### Concrete instances used by counterexamples and witnesses -/

/-- A registry whose types all merge by concatenating `text`, with no
cross-type transform: the "Hello World" configuration of the spec. -/
def mergeEnvHW : Env where
  getBlockType := fun _ =>
    ⟨some (fun a b =>
      [("text", ((lookupAttr a "text").getD "") ++ ((lookupAttr b "text").getD ""))])⟩
  switchToBlockType := fun _ _ => none
  defaultBlockName := "core/paragraph"

/-- Document `[A, B]` with `A = (a, x, text "Hello ")` and
`B = (b, x, text "World")`. -/
def mergeStHW : EditorState where
  past := []
  present := [Block.mk "a" "x" [("text", "Hello ")] [],
              Block.mk "b" "x" [("text", "World")] []]
  selectedBlockClientId := none
  template := none
  templateLock := none
  isValidTemplate := true

/-- A registry whose merge behavior returns the empty attribute object,
and whose transform of any block yields two candidates, the second
carrying client id `b`. -/
def mergeEnvDrop : Env where
  getBlockType := fun _ => ⟨some (fun _ _ => [])⟩
  switchToBlockType := fun _ _ => some [Block.mk "c" "x" [] [], Block.mk "b" "x" [] []]
  defaultBlockName := "core/paragraph"

/-- Document `[A, B]` with `A = (a, x, \x7bk: v\x7d)` and `B = (b, y)` of a
different type. -/
def mergeStDrop : EditorState where
  past := []
  present := [Block.mk "a" "x" [("k", "v")] [], Block.mk "b" "y" [] []]
  selectedBlockClientId := none
  template := none
  templateLock := none
  isValidTemplate := true

/-- A registry with no merge behavior on any type. -/
def mergeEnvNoMerge : Env where
  getBlockType := fun _ => ⟨none⟩
  switchToBlockType := fun _ _ => none
  defaultBlockName := "core/paragraph"

/-- Document `[P1, P2, P3]` snapshotted in history, with `P2` already
removed from the present tree. -/
def removeStW : EditorState where
  past := [[Block.mk "p1" "core/paragraph" [] [],
            Block.mk "p2" "core/paragraph" [] [],
            Block.mk "p3" "core/paragraph" [] []]]
  present := [Block.mk "p1" "core/paragraph" [] [],
              Block.mk "p3" "core/paragraph" [] []]
  selectedBlockClientId := none
  template := none
  templateLock := none
  isValidTemplate := true

/-- A locked-template-free state with a nonempty template. -/
def validStW : EditorState where
  past := []
  present := []
  selectedBlockClientId := none
  template := some [TemplateEntry.mk "heading" [] none]
  templateLock := some "insert"
  isValidTemplate := true

/-! ### Helper lemmas -/

/-- Run of `MERGE_BLOCKS` on the non-mergeable receiving type. -/
theorem mergeBlocksHandler_nonMergeable (env : Env) (st : EditorState)
    (firstId secondId : String) (blockA : Block)
    (hA : getBlock st firstId = some blockA)
    (hm : (env.getBlockType blockA.name).merge = none) :
    mergeBlocksHandler env st firstId secondId =
      .ok [.selectBlock blockA.clientId none] := by
  unfold mergeBlocksHandler
  simp only [hA, hm]

/-- Run of `MERGE_BLOCKS` when candidates exist. -/
theorem mergeBlocksHandler_success (env : Env) (st : EditorState)
    (firstId secondId : String) (blockA blockB candidate : Block)
    (mergeFn : AttrMap → AttrMap → AttrMap) (rest : List Block)
    (hA : getBlock st firstId = some blockA)
    (hm : (env.getBlockType blockA.name).merge = some mergeFn)
    (hB : getBlock st secondId = some blockB)
    (hc : (if blockA.name == blockB.name then some [blockB]
           else env.switchToBlockType blockB blockA.name) = some (candidate :: rest)) :
    mergeBlocksHandler env st firstId secondId =
      .ok [.selectBlock blockA.clientId (some (-1)),
           .replaceBlocks [blockA.clientId, blockB.clientId]
             (blockA.withAttributes
                (spreadMerge blockA.attributes
                  (mergeFn blockA.attributes candidate.attributes)) :: rest)] := by
  unfold mergeBlocksHandler
  simp only [hA, hm, hB, hc]

/-- Run of `MERGE_BLOCKS` when the transform yields no candidates. -/
theorem mergeBlocksHandler_noCandidates (env : Env) (st : EditorState)
    (firstId secondId : String) (blockA blockB : Block)
    (mergeFn : AttrMap → AttrMap → AttrMap)
    (hA : getBlock st firstId = some blockA)
    (hm : (env.getBlockType blockA.name).merge = some mergeFn)
    (hB : getBlock st secondId = some blockB)
    (hne : blockA.name ≠ blockB.name)
    (ht : env.switchToBlockType blockB blockA.name = none ∨
          env.switchToBlockType blockB blockA.name = some []) :
    mergeBlocksHandler env st firstId secondId = .ok [] := by
  unfold mergeBlocksHandler
  rcases ht with ht | ht <;>
    simp only [hA, hm, hB, ht, beq_iff_eq, if_neg hne]

/-- The client id survives an attribute replacement. -/
@[simp]
theorem Block.clientId_withAttributes (b : Block) (a : AttrMap) :
    (b.withAttributes a).clientId = b.clientId := by
  cases b
  rfl

/-! ### Claim theorems -/

/-- C1 (counterexample): with merge behavior `fun _ _ => \x7b\x7d` and a
transform producing a secondary candidate that carries B's id, the
handler dispatches a replacement whose first block keeps A's attribute
`k` (object spread over A's attributes) although the merge result is the
empty object, and B's id `b` does occur in the replacement list — both
contrary to the claim. -/
theorem mergeBlocks_replace_counterexample :
    mergeBlocksHandler mergeEnvDrop mergeStDrop "a" "b" =
      .ok [.selectBlock "a" (some (-1)),
           .replaceBlocks ["a", "b"]
             [Block.mk "a" "x" [("k", "v")] [], Block.mk "b" "x" [] []]]
    ∧ ((mergeEnvDrop.getBlockType "x").merge.getD (fun _ b => b))
        [("k", "v")] [] = []
    ∧ ([("k", "v")] : AttrMap) ≠ []
    ∧ "b" ∈ [Block.mk "a" "x" [("k", "v")] [], Block.mk "b" "x" [] []].map Block.clientId := by
  refine ⟨rfl, rfl, by decide, ?_⟩
  simp [Block.clientId]

/-- C1 (amended): when A resolves with a merge behavior, B resolves, and
the same-type identity or transform yields candidates `c :: rest`, the
handler dispatches a replace of `[A, B]` by a block identical to A except
with attributes `A.attributes` overridden by `merge(A.attributes,
c.attributes)` (JS object spread: keys the merge result drops keep A's
values), followed by `rest`; in the same-type case there are no remaining
candidates, so B's id (when distinct from A's) does not appear in the
replacement list. -/
theorem mergeBlocks_replace_amended (env : Env) (st : EditorState)
    (firstId secondId : String) (blockA blockB candidate : Block)
    (mergeFn : AttrMap → AttrMap → AttrMap) (rest : List Block)
    (hA : getBlock st firstId = some blockA)
    (hm : (env.getBlockType blockA.name).merge = some mergeFn)
    (hB : getBlock st secondId = some blockB)
    (hc : (if blockA.name == blockB.name then some [blockB]
           else env.switchToBlockType blockB blockA.name) = some (candidate :: rest)) :
    mergeBlocksHandler env st firstId secondId =
      .ok [.selectBlock blockA.clientId (some (-1)),
           .replaceBlocks [blockA.clientId, blockB.clientId]
             (blockA.withAttributes
                (spreadMerge blockA.attributes
                  (mergeFn blockA.attributes candidate.attributes)) :: rest)]
    ∧ (blockA.name = blockB.name →
        rest = [] ∧ (blockB.clientId ≠ blockA.clientId →
          blockB.clientId ∉
            (blockA.withAttributes
               (spreadMerge blockA.attributes
                 (mergeFn blockA.attributes candidate.attributes)) :: rest).map
              Block.clientId)) := by
  refine ⟨mergeBlocksHandler_success env st firstId secondId blockA blockB candidate
    mergeFn rest hA hm hB hc, ?_⟩
  intro hname
  rw [hname] at hc
  simp only [beq_self_eq_true, if_true, Option.some.injEq, List.cons.injEq] at hc
  obtain ⟨h₁, h₂⟩ := hc
  subst h₁
  subst h₂
  refine ⟨rfl, fun hne => ?_⟩
  simp [hne]

/-- C1 (witness): the "Hello World" merge of two same-type blocks
replaces the pair by the single merged block, without B's id. -/
theorem mergeBlocks_replace_amended_witness :
    mergeBlocksHandler mergeEnvHW mergeStHW "a" "b" =
      .ok [.selectBlock "a" (some (-1)),
           .replaceBlocks ["a", "b"]
             [Block.mk "a" "x" [("text", "Hello World")] []]]
    ∧ ("b" : String) ≠ "a" := by
  have h := mergeBlocks_replace_amended mergeEnvHW mergeStHW "a" "b"
    (Block.mk "a" "x" [("text", "Hello ")] [])
    (Block.mk "b" "x" [("text", "World")] [])
    (Block.mk "b" "x" [("text", "World")] [])
    (fun a b =>
      [("text", ((lookupAttr a "text").getD "") ++ ((lookupAttr b "text").getD ""))])
    [] rfl rfl rfl rfl
  exact ⟨h.1, by decide⟩

/-- C5: merging with an incompatible second block — B resolves, its type
differs from A's, and the transform yields no candidates (null or empty)
— dispatches no action at all, leaving the block list and the selection
unchanged. -/
theorem mergeBlocks_incompatible_noop (env : Env) (st : EditorState)
    (firstId secondId : String) (blockA blockB : Block)
    (mergeFn : AttrMap → AttrMap → AttrMap)
    (hA : getBlock st firstId = some blockA)
    (hm : (env.getBlockType blockA.name).merge = some mergeFn)
    (hB : getBlock st secondId = some blockB)
    (hne : blockA.name ≠ blockB.name)
    (ht : env.switchToBlockType blockB blockA.name = none ∨
          env.switchToBlockType blockB blockA.name = some []) :
    mergeBlocksHandler env st firstId secondId = .ok []
    ∧ (applyActions env st []).present = st.present
    ∧ (applyActions env st []).selectedBlockClientId = st.selectedBlockClientId := by
  exact ⟨mergeBlocksHandler_noCandidates env st firstId secondId blockA blockB
    mergeFn hA hm hB hne ht, rfl, rfl⟩

/-- C5 (witness): a concrete incompatible pair is a no-op. -/
theorem mergeBlocks_incompatible_noop_witness :
    mergeBlocksHandler mergeEnvHW mergeStDrop "a" "b" = .ok []
    ∧ (applyActions mergeEnvHW mergeStDrop []).present = mergeStDrop.present := by
  have h := mergeBlocks_incompatible_noop mergeEnvHW mergeStDrop "a" "b"
    (Block.mk "a" "x" [("k", "v")] []) (Block.mk "b" "y" [] [])
    (fun a b =>
      [("text", ((lookupAttr a "text").getD "") ++ ((lookupAttr b "text").getD ""))])
    rfl rfl rfl (by decide) (Or.inl rfl)
  exact ⟨h.1, h.2.1⟩

/-- C6: with a receiving type that has no merge behavior, the handler
dispatches exactly one action — selecting A with no caret offset — and
applying it changes no block structure, whatever the second id is. -/
theorem mergeBlocks_nonMergeable_selectOnly (env : Env) (st : EditorState)
    (firstId secondId : String) (blockA : Block)
    (hA : getBlock st firstId = some blockA)
    (hm : (env.getBlockType blockA.name).merge = none) :
    mergeBlocksHandler env st firstId secondId =
      .ok [.selectBlock blockA.clientId none]
    ∧ (applyActions env st [.selectBlock blockA.clientId none]).present = st.present := by
  exact ⟨mergeBlocksHandler_nonMergeable env st firstId secondId blockA hA hm, rfl⟩

/-- C6 (witness): a concrete non-mergeable receiving type yields only the
selection of A. -/
theorem mergeBlocks_nonMergeable_selectOnly_witness :
    mergeBlocksHandler mergeEnvNoMerge mergeStHW "a" "b" =
      .ok [.selectBlock "a" none]
    ∧ (applyActions mergeEnvNoMerge mergeStHW [.selectBlock "a" none]).present =
        mergeStHW.present := by
  have h := mergeBlocks_nonMergeable_selectOnly mergeEnvNoMerge mergeStHW "a" "b"
    (Block.mk "a" "x" [("text", "Hello ")] []) rfl rfl
  exact ⟨h.1, h.2⟩

/-- C7: when A's type is mergeable but the second id resolves to no
block, the handler raises (reading `name` of a missing block) before any
dispatch: the run is an error and the dispatched action list is empty. -/
theorem mergeBlocks_missingSecond_fails (env : Env) (st : EditorState)
    (firstId secondId : String) (blockA : Block)
    (mergeFn : AttrMap → AttrMap → AttrMap)
    (hA : getBlock st firstId = some blockA)
    (hm : (env.getBlockType blockA.name).merge = some mergeFn)
    (hB : getBlock st secondId = none) :
    mergeBlocksHandler env st firstId secondId = .error () := by
  unfold mergeBlocksHandler
  simp only [hA, hm, hB]

/-- C7 (witness): a concrete absent second id fails the effect. -/
theorem mergeBlocks_missingSecond_fails_witness :
    mergeBlocksHandler mergeEnvHW mergeStHW "a" "zz" = .error () := by
  exact mergeBlocks_missingSecond_fails mergeEnvHW mergeStHW "a" "zz"
    (Block.mk "a" "x" [("text", "Hello ")] [])
    (fun a b =>
      [("text", ((lookupAttr a "text").getD "") ++ ((lookupAttr b "text").getD ""))])
    rfl rfl rfl

/-- C10: the non-mergeable path selects A with the omitted (default)
caret position, while the successful-merge path selects A with the
end-of-content sentinel `-1`; the two caret positions differ. -/
theorem mergeBlocks_caretOffsets
    (env₁ st₁ : _) (f₁ s₁ : String) (blockA₁ : Block)
    (hA₁ : getBlock st₁ f₁ = some blockA₁)
    (hm₁ : (env₁.getBlockType blockA₁.name).merge = none)
    (env₂ st₂ : _) (f₂ s₂ : String) (blockA₂ blockB₂ candidate : Block)
    (mergeFn : AttrMap → AttrMap → AttrMap) (rest : List Block)
    (hA₂ : getBlock st₂ f₂ = some blockA₂)
    (hm₂ : (env₂.getBlockType blockA₂.name).merge = some mergeFn)
    (hB₂ : getBlock st₂ s₂ = some blockB₂)
    (hc₂ : (if blockA₂.name == blockB₂.name then some [blockB₂]
            else env₂.switchToBlockType blockB₂ blockA₂.name) = some (candidate :: rest)) :
    mergeBlocksHandler env₁ st₁ f₁ s₁ = .ok [.selectBlock blockA₁.clientId none]
    ∧ (∃ tail, mergeBlocksHandler env₂ st₂ f₂ s₂ =
        .ok (.selectBlock blockA₂.clientId (some (-1)) :: tail))
    ∧ (none : Option Int) ≠ some (-1) := by
  refine ⟨mergeBlocksHandler_nonMergeable env₁ st₁ f₁ s₁ blockA₁ hA₁ hm₁, ?_, by decide⟩
  exact ⟨_, mergeBlocksHandler_success env₂ st₂ f₂ s₂ blockA₂ blockB₂ candidate
    mergeFn rest hA₂ hm₂ hB₂ hc₂⟩

/-- C10 (witness): the two paths at concrete inputs, with their distinct
caret positions. -/
theorem mergeBlocks_caretOffsets_witness :
    mergeBlocksHandler mergeEnvNoMerge mergeStHW "a" "b" =
      .ok [.selectBlock "a" none]
    ∧ (∃ tail, mergeBlocksHandler mergeEnvHW mergeStHW "a" "b" =
        .ok (.selectBlock "a" (some (-1)) :: tail))
    ∧ (none : Option Int) ≠ some (-1) := by
  exact mergeBlocks_caretOffsets mergeEnvNoMerge mergeStHW "a" "b"
    (Block.mk "a" "x" [("text", "Hello ")] []) rfl rfl
    mergeEnvHW mergeStHW "a" "b"
    (Block.mk "a" "x" [("text", "Hello ")] [])
    (Block.mk "b" "x" [("text", "World")] [])
    (Block.mk "b" "x" [("text", "World")] [])
    (fun a b =>
      [("text", ((lookupAttr a "text").getD "") ++ ((lookupAttr b "text").getD ""))])
    [] rfl rfl rfl rfl

/-- The spec-side target agrees with the fallback expression the source
builds with `||`. -/
theorem previousBlockTarget_eq (snap : List Block) (id : String) :
    previousBlockTarget snap id =
      (getPreviousBlockClientId snap id).getD (getBlockRootClientId snap id) := by
  unfold previousBlockTarget
  cases getPreviousBlockClientId snap id <;> rfl

/-- Unfolding of `selectPreviousBlock` under a truthy flag, phrased with
the spec-side target. -/
theorem selectPreviousBlock_true (cids : List String) (st : EditorState) :
    selectPreviousBlock cids true st =
      if some (previousBlockTarget (st.past.getLastD []) (cids.headD "")) ≠
           st.selectedBlockClientId
      then some (.selectBlock
             (previousBlockTarget (st.past.getLastD []) (cids.headD "")) (some (-1)))
      else none := by
  rw [previousBlockTarget_eq]
  rfl


/-- C2: with a falsy `selectPrevious` the effect emits nothing; with a
truthy one its target is computed from the most recent history entry —
preceding sibling, else parent container — and the select-block action
with sentinel offset `-1` is emitted exactly when that target is not the
currently selected block. -/
theorem selectPreviousBlock_spec (cids : List String) (sp : Bool) (st : EditorState) :
    (sp = false → selectPreviousBlock cids sp st = none)
    ∧ (sp = true →
        (selectPreviousBlock cids sp st =
           some (.selectBlock
             (previousBlockTarget (st.past.getLastD []) (cids.headD "")) (some (-1)))
         ↔ st.selectedBlockClientId ≠
             some (previousBlockTarget (st.past.getLastD []) (cids.headD "")))
        ∧ (st.selectedBlockClientId =
             some (previousBlockTarget (st.past.getLastD []) (cids.headD "")) →
           selectPreviousBlock cids sp st = none)) := by
  refine ⟨fun h => by subst h; rfl, fun h => ?_⟩
  subst h
  rw [selectPreviousBlock_true]
  by_cases hsel : st.selectedBlockClientId =
    some (previousBlockTarget (st.past.getLastD []) (cids.headD ""))
  · rw [if_neg (not_not_intro hsel.symm)]
    exact ⟨⟨fun hcon => Option.noConfusion hcon, fun hne => absurd hsel hne⟩,
      fun _ => rfl⟩
  · rw [if_pos (fun hEq => hsel hEq.symm)]
    exact ⟨⟨fun _ => hsel, fun _ => rfl⟩, fun hcon => absurd hcon hsel⟩

/-- C2 (witness): removing `p2` from `[p1, p2, p3]` with nothing selected
selects `p1` at the end-of-content sentinel. -/
theorem selectPreviousBlock_spec_witness :
    selectPreviousBlock ["p2"] true removeStW =
      some (.selectBlock "p1" (some (-1))) := by
  have h := ((selectPreviousBlock_spec ["p2"] true removeStW).2 rfl).1
  exact h.mpr (by decide)

/-- C3: the default-content effect emits the default block insertion
exactly when the block count is zero; applying what it emits leaves at
least one block; and it is wired to both removal and replacement in the
registry. -/
theorem ensureDefaultBlock_spec (env : Env) (st : EditorState)
    (cids : List String) (sp : Bool) (bs : List Block) :
    (ensureDefaultBlock st = some .insertDefaultBlock ↔ getBlockCount st = 0)
    ∧ 1 ≤ getBlockCount (applyActions env st (ensureDefaultBlock st).toList)
    ∧ effects env st (.replaceBlocks cids bs) = .ok (ensureDefaultBlock st).toList
    ∧ effects env st (.removeBlocks cids sp) =
        .ok ((selectPreviousBlock cids sp st).toList ++
             (ensureDefaultBlock st).toList) := by
  refine ⟨?_, ?_, rfl, rfl⟩
  · unfold ensureDefaultBlock
    by_cases h : getBlockCount st = 0 <;> simp [h]
  · rcases hp : st.present with _ | ⟨b, rest⟩ <;>
      simp [ensureDefaultBlock, getBlockCount, hp, applyActions, applyAction]

/-- C4: with no configured template, or a template lock other than
`all`, the computed validity is true. -/
theorem computeValidity_unlocked (st : EditorState) (bs : List Block)
    (h : st.template = none ∨ st.templateLock ≠ some "all") :
    computeValidity st bs = true := by
  unfold computeValidity
  rcases h with h | h
  · simp [h]
  · cases ht : st.template <;> simp [h]


/-- C4 (witness): a template under an `insert` lock validates any block
list, here the empty one. -/
theorem computeValidity_unlocked_witness :
    validStW.templateLock ≠ some "all" ∧ computeValidity validStW [] = true :=
  ⟨by decide, computeValidity_unlocked validStW [] (Or.inr (by decide))⟩

/-- C8: the validity effect emits the set-validity action precisely when
the computed validity differs from the cached flag, emits nothing when
they agree, and in that case a reset action produces an empty derived
action list (chain depth 0). -/
theorem validateBlocksToTemplate_emission (env : Env) (st : EditorState)
    (bs : List Block) :
    (validateBlocksToTemplate bs st =
        some (.setTemplateValidity (computeValidity st bs)) ↔
      computeValidity st bs ≠ st.isValidTemplate)
    ∧ (validateBlocksToTemplate bs st = none ↔
        computeValidity st bs = st.isValidTemplate)
    ∧ (effects env st (.resetBlocks bs) = .ok [] ↔
        computeValidity st bs = st.isValidTemplate) := by
  by_cases h : computeValidity st bs = st.isValidTemplate <;>
    simp [validateBlocksToTemplate, effects, h, bne_iff_ne]

/-- C9: the synchronize-template handler always produces a full reset to
the reconciliation of the present blocks against the template; the
reconciliation follows the template's length (missing entries created,
trailing blocks dropped), reuses a position's block exactly when its
type matches (recursing into children) and builds a fresh default block
otherwise, and an absent template reconciles to the blocks unchanged;
the produced reset in turn drives the validity effect. -/
theorem synchronizeTemplate_resets (env : Env) (st : EditorState) (bs : List Block) :
    effects env st .synchronizeTemplate =
      .ok [.resetBlocks (synchronizeBlocksWithTemplate st.present st.template)]
    ∧ (∀ blocks t, (syncList blocks t).length = t.length)
    ∧ (∀ blocks, synchronizeBlocksWithTemplate blocks none = blocks)
    ∧ (∀ c n a inner rest tn tattrs tc ts,
        syncList (Block.mk c n a inner :: rest) (TemplateEntry.mk tn tattrs tc :: ts) =
          (if n == tn then Block.mk c n a (synchronizeBlocksWithTemplate inner tc)
           else Block.mk "" tn tattrs (synchronizeBlocksWithTemplate [] tc)) ::
          syncList rest ts)
    ∧ (∀ tn tattrs tc ts,
        syncList [] (TemplateEntry.mk tn tattrs tc :: ts) =
          Block.mk "" tn tattrs (synchronizeBlocksWithTemplate [] tc) ::
          syncList [] ts)
    ∧ effects env st (.resetBlocks bs) = .ok (validateBlocksToTemplate bs st).toList := by
  refine ⟨rfl, ?_, fun blocks => by rw [synchronizeBlocksWithTemplate],
    fun c n a inner rest tn tattrs tc ts => ?_, fun tn tattrs tc ts => ?_, rfl⟩
  · intro blocks t
    induction t generalizing blocks with
    | nil => simp [syncList]
    | cons e ts ih =>
      cases e
      rw [syncList.eq_def]
      simp [ih]
  · rw [syncList]
    rfl
  · rw [syncList]
    rfl

end Gutenberg
